import Mathlib

/-!
# Verification of the `usePokemonDetailsCache` hook

Shallow embedding of the per-pokemon detail-fetch cache implemented in
`src/components/ui/LoaderCard.tsx` (`usePokemonDetailsCache`): a mutable
record `cache : Record<string, PokemonDetails | undefined>`, a set
`loadingIds : Set<string>`, and three operations `fetchDetails`,
`getDetails`, `isLoading`.

Modelling choices:
* The JS record is an association list `List (String × Option PokemonDetails)`;
  assignment prepends, reading takes the first matching key.  A key assigned
  `undefined` (the catch branch, line 40) is `(k, none)`; a key never assigned
  is simply missing.  Both read back as `undefined` through `cache.current[k]`,
  which `jsRead` captures by flattening.
* `PokemonDetails` values are JS objects, hence always truthy; the filter
  `!cache.current[key.toLowerCase()]` is therefore `(jsRead …).isNone`.
* `loadingIds` is React `useState`: a `setLoadingIds` update is committed
  only at a re-render.  `HookState`-threading models invocations from
  successive renders (each sees the previously committed value), while
  `RenderView`/`syncCalls` model back-to-back invocations of one render's
  closure, which share a single stale `loadingIds` snapshot next to the
  live cache ref.
* One `fetchDetails` invocation is decomposed into its synchronous prefix
  (filter + pending marking, lines 26-30), the per-key completion callbacks
  (lines 32-42), and the batch cleanup (lines 44-49).  `Promise.all` issues
  all network calls before any completes, so the list of issued request URLs
  is determined by the synchronous prefix alone.
* The network is an oracle `net : String → Except String PokemonDetails`
  mapping a request URL to a response payload or a thrown error.
-/

/-- The detail payload (`res.data`), passed through opaquely by the cache.
Only representative identity fields are modelled; the cache never inspects
the payload. -/
structure PokemonDetails where
  id : Nat
  name : String
  deriving DecidableEq, Repr

/-- JS `String.prototype.toLowerCase()` as used on the keys here:
per-character lowercasing of the string's character sequence. -/
def jsToLower (s : String) : String := ⟨s.data.map Char.toLower⟩

/-- Character-list prefix test. -/
def charsStart : List Char → List Char → Bool
  | _, [] => true
  | [], _ :: _ => false
  | c :: cs, p :: ps => if c = p then charsStart cs ps else false

/-- JS `String.prototype.startsWith(pat)`: the string begins with `pat`. -/
def jsStartsWith (s pat : String) : Bool := charsStart s.data pat.data

/-- First-match association-list lookup: `cacheGet m k` is JS
`k in m ? m[k] : absent`, distinguishing a key stored with value
`undefined` (`some none`) from a missing key (`none`). -/
def cacheGet : List (String × Option PokemonDetails) → String → Option (Option PokemonDetails)
  | [], _ => none
  | (k, v) :: rest, key => if k = key then some v else cacheGet rest key

/-- The value of the JS expression `m[k]`: `undefined` both when the key is
missing and when it was assigned `undefined`. -/
def jsRead (m : List (String × Option PokemonDetails)) (key : String) : Option PokemonDetails :=
  match cacheGet m key with
  | some v => v
  | none => none

/-- Membership in the `loadingIds` set (`Set.prototype.has`). -/
def hasKey : List String → String → Bool
  | [], _ => false
  | x :: rest, key => if x = key then true else hasKey rest key

/-- The hook's state: the ref-backed cache record (line 20) and the
`loadingIds` state set (line 21). -/
structure HookState where
  cache : List (String × Option PokemonDetails)
  loading : List String
  deriving Repr

/-- The state on first mount: empty record, empty set. -/
def initialState : HookState := ⟨[], []⟩

/-- Request-URL construction (lines 34-36): a key that starts with `"http"`
is used verbatim as the URL, any other key is appended verbatim (original
casing) to the fixed API base. -/
def urlFor (nameOrUrl : String) : String :=
  if jsStartsWith nameOrUrl "http" then nameOrUrl
  else "https://pokeapi.co/api/v2/pokemon/" ++ nameOrUrl

/-- The filter predicate of lines 26-28: a key is fetched iff its lowercased
form reads back as `undefined` from the cache AND is not in `loadingIds`. -/
def shouldFetch (s : HookState) (key : String) : Bool :=
  (jsRead s.cache (jsToLower key)).isNone && !(hasKey s.loading (jsToLower key))

/-- `toFetch` (lines 26-28): the input occurrences that pass the filter.
The input list itself is not deduplicated. -/
def toFetch (s : HookState) (namesOrUrls : List String) : List String :=
  namesOrUrls.filter (fun key => shouldFetch s key)

/-- Line 30: add the lowercased keys of the batch to `loadingIds`. -/
def markPending (s : HookState) (tf : List String) : HookState :=
  { s with loading := s.loading ++ tf.map jsToLower }

/-- The synchronous prefix of `fetchDetails` (lines 26-31): compute the
batch, return early if it is empty (line 29), otherwise mark every batch
key Pending and hand back the batch whose network calls are then issued.
Everything here happens before any network call can resolve. -/
def fetchDetailsStart (s : HookState) (namesOrUrls : List String) : HookState × List String :=
  let tf := toFetch s namesOrUrls
  if tf.isEmpty then (s, [])
  else (markPending s tf, tf)

/-- A completion callback writing one result into the cache record: line 38
on success (`res.data`), line 40 on failure (`undefined`).  Both store under
the lowercased key. -/
def settleOne (s : HookState) (nameOrUrl : String) (result : Option PokemonDetails) : HookState :=
  { s with cache := (jsToLower nameOrUrl, result) :: s.cache }

/-- One key's fetch task (lines 32-42): build the URL, perform the request,
store the payload; the catch converts a thrown error into storing
`undefined`. -/
def fetchOne (net : String → Except String PokemonDetails) (s : HookState)
    (nameOrUrl : String) : HookState :=
  match net (urlFor nameOrUrl) with
  | .ok d => settleOne s nameOrUrl (some d)
  | .error _ => settleOne s nameOrUrl none

/-- Lines 44-48: after `Promise.all` settles, delete every batch key
(lowercased) from `loadingIds`. -/
def clearPending (s : HookState) (tf : List String) : HookState :=
  { s with loading := s.loading.filter (fun x => !(hasKey (tf.map jsToLower) x)) }

/-- One complete `fetchDetails(namesOrUrls)` invocation run to settlement
(lines 25-50), with the network oracle `net` supplying each call's outcome.
Returns the final hook state and the list of request URLs issued.
Completions may interleave in any real-time order; since each callback
writes only its own key, the fold linearizes them in batch order. -/
def fetchDetails (net : String → Except String PokemonDetails) (s : HookState)
    (namesOrUrls : List String) : HookState × List String :=
  let tf := toFetch s namesOrUrls
  if tf.isEmpty then (s, [])
  else
    let s1 := markPending s tf
    let s2 := tf.foldl (fetchOne net) s1
    (clearPending s2 tf, tf.map urlFor)

/-- `getDetails` (lines 53-54): read the cache at the lowercased key;
`?? null` sends `undefined` to `null`, which the flattening of `jsRead`
already performs. -/
def getDetails (s : HookState) (nameOrUrl : String) : Option PokemonDetails :=
  jsRead s.cache (jsToLower nameOrUrl)

/-- `isLoading` (lines 57-58). -/
def isLoading (s : HookState) (nameOrUrl : String) : Bool :=
  hasKey s.loading (jsToLower nameOrUrl)

/-- The conceptual per-key status of the spec's data model, read off the
concrete hook state: a truthy cache value is Resolved, a cache key assigned
`undefined` records a failure, a key in `loadingIds` is Pending, anything
else is Absent. -/
inductive EntryStatus where
  | absent
  | pending
  | failed
  | resolved (p : PokemonDetails)
  deriving DecidableEq, Repr

/-- Derive the spec-level status of a key from the hook state. -/
def entryStatus (s : HookState) (key : String) : EntryStatus :=
  match cacheGet s.cache (jsToLower key) with
  | some (some p) => .resolved p
  | some none => .failed
  | none => if hasKey s.loading (jsToLower key) then .pending else .absent

/-- What one render's `fetchDetails` closure actually reads (lines 20-21):
`cache.current` is a live ref, but `loadingIds` is the `useState` value of
the render that created the closure — a `const` captured by it.  A
`setLoadingIds` call only queues an update, committed at the next render;
it never changes the snapshot the current closure already holds. -/
structure RenderView where
  cacheRef : List (String × Option PokemonDetails)
  loadingSnapshot : List String

/-- The batch computed by the synchronous prefix of one `fetchDetails`
invocation (lines 26-28) reading through a render view: these are exactly
the keys whose network calls the invocation issues.  For two back-to-back
invocations of the same render's closure, both read the same
`loadingSnapshot` (line 30's `setLoadingIds` is only queued) and the same
cache ref contents (the first write is a completion callback, which cannot
run before the second invocation's synchronous prefix). -/
def syncCalls (v : RenderView) (namesOrUrls : List String) : List String :=
  toFetch ⟨v.cacheRef, v.loadingSnapshot⟩ namesOrUrls

/-! ## The exception-tracking variant for the no-throw claim

`fetchDetailsE` re-runs the same code but propagates a thrown error as
`Except.error` wherever the source has no handler; only the per-key
`try`/`catch` (lines 33-41) discharges one.  Comparing it with
`fetchDetails` shows no exception escapes the hook. -/

/-- The `try` block body (lines 34-38) with the throw of the `axios` call
made explicit: fails exactly when the network call throws. -/
def tryBody (net : String → Except String PokemonDetails) (s : HookState)
    (nameOrUrl : String) : Except String HookState := do
  let d ← net (urlFor nameOrUrl)
  pure (settleOne s nameOrUrl (some d))

/-- Lines 32-42 with the catch handler (line 39-41) applied to the
`try` body's outcome. -/
def fetchOneE (net : String → Except String PokemonDetails) (s : HookState)
    (nameOrUrl : String) : Except String HookState :=
  match tryBody net s nameOrUrl with
  | .ok s' => .ok s'
  | .error _ => .ok (settleOne s nameOrUrl none)

/-- `fetchDetails` with exception propagation: any error not caught inside
a per-key task would surface here as `.error`. -/
def fetchDetailsE (net : String → Except String PokemonDetails) (s : HookState)
    (namesOrUrls : List String) : Except String (HookState × List String) := do
  let tf := toFetch s namesOrUrls
  if tf.isEmpty then pure (s, [])
  else
    let s1 := markPending s tf
    let s2 ← tf.foldlM (fetchOneE net) s1
    pure (clearPending s2 tf, tf.map urlFor)

/-! ## Helper lemmas -/

theorem jsRead_isNone_iff (m : List (String × Option PokemonDetails)) (key : String) :
    (jsRead m key).isNone = true ↔ (cacheGet m key = none ∨ cacheGet m key = some none) := by
  unfold jsRead
  cases h : cacheGet m key with
  | none => simp
  | some v => cases v <;> simp

theorem hasKey_append (l₁ l₂ : List String) (key : String) :
    hasKey (l₁ ++ l₂) key = (hasKey l₁ key || hasKey l₂ key) := by
  induction l₁ with
  | nil => simp [hasKey]
  | cons x rest ih =>
    simp only [List.cons_append, hasKey]
    by_cases hx : x = key <;> simp [hx, ih]

theorem hasKey_iff_mem (l : List String) (key : String) :
    hasKey l key = true ↔ key ∈ l := by
  induction l with
  | nil => simp [hasKey]
  | cons x rest ih =>
    simp only [hasKey, List.mem_cons]
    by_cases hx : x = key
    · subst hx; simp
    · simp only [if_neg hx, ih]
      constructor
      · exact Or.inr
      · rintro (h | h)
        · exact absurd h.symm hx
        · exact h

theorem hasKey_filter (p : String → Bool) (l : List String) (key : String) :
    hasKey (l.filter p) key = (hasKey l key && p key) := by
  induction l with
  | nil => simp [hasKey]
  | cons x rest ih =>
    by_cases hx : x = key
    · subst hx
      cases hp : p x <;> simp [List.filter, hp, hasKey, ih]
    · cases hp : p x <;> simp [List.filter, hp, hasKey, hx, ih]

/-- Completion callbacks for keys other than `key` (after lowercasing) do not
change what the cache reads back at `key`. -/
theorem cacheGet_foldl_fetchOne_of_notin
    (net : String → Except String PokemonDetails) (tf : List String)
    (s : HookState) (key : String)
    (h : ∀ e ∈ tf, jsToLower e ≠ key) :
    cacheGet (tf.foldl (fetchOne net) s).cache key = cacheGet s.cache key := by
  induction tf generalizing s with
  | nil => rfl
  | cons e rest ih =>
    have he : jsToLower e ≠ key := h e (by simp)
    have hrest : ∀ x ∈ rest, jsToLower x ≠ key := fun x hx => h x (by simp [hx])
    rw [List.foldl_cons, ih _ hrest]
    unfold fetchOne
    cases net (urlFor e) <;> simp [settleOne, cacheGet, he]

/-- The fold of completion callbacks never touches `loading`. -/
theorem loading_foldl_fetchOne
    (net : String → Except String PokemonDetails) (tf : List String) (s : HookState) :
    (tf.foldl (fetchOne net) s).loading = s.loading := by
  induction tf generalizing s with
  | nil => rfl
  | cons e rest ih =>
    rw [List.foldl_cons, ih]
    unfold fetchOne
    cases net (urlFor e) <;> rfl

/-- After the whole batch settles, every batch key has been deleted from
`loadingIds`, whatever happened in between. -/
theorem isLoading_after_clearPending (s : HookState) (tf : List String) (key : String)
    (h : jsToLower key ∈ tf.map jsToLower) :
    isLoading (clearPending s tf) key = false := by
  unfold isLoading clearPending
  simp only [hasKey_filter]
  have : hasKey (tf.map jsToLower) (jsToLower key) = true := (hasKey_iff_mem _ _).mpr h
  simp [this]

/-- The network calls issued by one invocation are exactly one per input
occurrence that passes the filter of lines 26-28, at that occurrence's URL. -/
theorem fetchDetails_calls (net : String → Except String PokemonDetails)
    (t : HookState) (l : List String) :
    (fetchDetails net t l).2 = (toFetch t l).map urlFor := by
  unfold fetchDetails
  by_cases h : (toFetch t l).isEmpty
  · rw [List.isEmpty_iff] at h
    simp [h]
  · simp [h]

/-! ## Concrete network oracles used in witnesses and counterexamples -/

/-- A network where every request throws. -/
def netErr : String → Except String PokemonDetails := fun _ => .error "network error"

/-- A network where every request succeeds, echoing the URL into the payload. -/
def netOkEcho : String → Except String PokemonDetails := fun u => .ok ⟨25, u⟩

/-- A network that resolves only the canonical pikachu URL. -/
def netPika : String → Except String PokemonDetails := fun u =>
  if u = "https://pokeapi.co/api/v2/pokemon/pikachu" then .ok ⟨25, "pikachu"⟩
  else .error "404"

/-- A network where every request succeeds with a fixed payload. -/
def netOkConst : String → Except String PokemonDetails := fun _ => .ok ⟨25, "pikachu"⟩

/-! ## Claim theorems -/

/-- C4: `getDetails` is a pure lookup returning the cached payload exactly in
the Resolved state and `none` in the Absent, Pending and Failed states; in
particular a Failed key and a never-requested key read back identically. -/
theorem getDetails_resolved_only (s : HookState) (k : String) :
    getDetails s k = (match entryStatus s k with
      | .resolved p => some p
      | _ => none) := by
  unfold getDetails jsRead entryStatus
  cases h : cacheGet s.cache (jsToLower k) with
  | none => by_cases hl : hasKey s.loading (jsToLower k) <;> simp [hl]
  | some v => cases v <;> simp

theorem fetchOneE_eq (net : String → Except String PokemonDetails)
    (s : HookState) (nameOrUrl : String) :
    fetchOneE net s nameOrUrl = .ok (fetchOne net s nameOrUrl) := by
  unfold fetchOneE tryBody fetchOne
  cases h : net (urlFor nameOrUrl) <;> simp [h, Except.bind]

theorem foldlM_fetchOneE (net : String → Except String PokemonDetails)
    (tf : List String) (s : HookState) :
    tf.foldlM (fetchOneE net) s = .ok (tf.foldl (fetchOne net) s) := by
  induction tf generalizing s with
  | nil => rfl
  | cons e rest ih =>
    rw [List.foldlM_cons, fetchOneE_eq]
    simp only [List.foldl_cons]
    rw [← ih (fetchOne net s e)]
    rfl

/-- C7: `fetchDetails` never propagates an exception: with every throw made
explicit, the invocation always resolves normally to the same final state
and calls as the non-throwing model, whatever the network does. -/
theorem fetchDetails_no_throw (net : String → Except String PokemonDetails)
    (s : HookState) (input : List String) :
    fetchDetailsE net s input = .ok (fetchDetails net s input) := by
  unfold fetchDetailsE fetchDetails
  by_cases h : (toFetch s input).isEmpty
  · simp [h, pure, Except.pure]
  · simp [h, foldlM_fetchOneE]

/-- C2 counterexample: the single-outstanding-request guarantee does not
hold unconditionally.  Calling `fetchDetails(["pikachu"])` twice in
succession from the same render, before the first request resolves, issues
two network calls for `"pikachu"`, not one: the second invocation reads the
same stale `loadingIds` snapshot (line 30's `setLoadingIds` is committed
only at the next render) and the same still-unwritten cache ref, so its
filter passes `"pikachu"` again. -/
theorem stale_snapshot_duplicate_call_cex :
    syncCalls ⟨[], []⟩ ["pikachu"] ++ syncCalls ⟨[], []⟩ ["pikachu"] =
      ["pikachu", "pikachu"] ∧
    (syncCalls ⟨[], []⟩ ["pikachu"] ++ syncCalls ⟨[], []⟩ ["pikachu"]).length ≠ 1 := by
  refine ⟨by decide, by decide⟩

/-- C2 amended: the Pending guard is effective only across renders.  Two
back-to-back invocations of the same render's `fetchDetails` closure both
read the same stale `loadingIds` snapshot and the still-unwritten cache
ref, so each issues a network call for a novel key `k` (two calls in
total); whereas once a re-render has committed the first invocation's
Pending mark, a second `fetchDetails([k])` made while the request is still
outstanding issues no call at all. -/
theorem pending_guard_requires_commit (v : RenderView) (s : HookState) (k : String)
    (net : String → Except String PokemonDetails)
    (hv : shouldFetch ⟨v.cacheRef, v.loadingSnapshot⟩ k = true)
    (h : shouldFetch s k = true) :
    syncCalls v [k] ++ syncCalls v [k] = [k, k] ∧
    (fetchDetailsStart s [k]).2 = [k] ∧
    fetchDetails net (fetchDetailsStart s [k]).1 [k] = ((fetchDetailsStart s [k]).1, []) := by
  have hsync : syncCalls v [k] = [k] := by simp [syncCalls, toFetch, hv]
  have htf : toFetch s [k] = [k] := by simp [toFetch, h]
  have hstart : fetchDetailsStart s [k] = (markPending s [k], [k]) := by
    simp [fetchDetailsStart, htf]
  refine ⟨by rw [hsync]; rfl, by rw [hstart], ?_⟩
  rw [hstart]
  have hload : hasKey (markPending s [k]).loading (jsToLower k) = true := by
    simp [markPending, hasKey_append, hasKey]
  have hsf : shouldFetch (markPending s [k]) k = false := by
    unfold shouldFetch
    rw [hload]
    simp
  have htf2 : toFetch (markPending s [k]) [k] = [] := by simp [toFetch, hsf]
  simp [fetchDetails, htf2]

/-- C5: a novel key in a batch is marked Pending by the synchronous prefix of
`fetchDetails`, before its network call is issued; at that point `isLoading`
is already true and `getDetails` still null. -/
theorem pending_before_call (s : HookState) (input : List String) (k : String)
    (hk : k ∈ input) (h : shouldFetch s k = true) :
    isLoading (fetchDetailsStart s input).1 k = true ∧
    getDetails (fetchDetailsStart s input).1 k = none := by
  have hmem : k ∈ toFetch s input := List.mem_filter.mpr ⟨hk, h⟩
  have hne : (toFetch s input).isEmpty = false := by
    cases htf : toFetch s input with
    | nil => rw [htf] at hmem; cases hmem
    | cons x xs => rfl
  have hstart : (fetchDetailsStart s input).1 = markPending s (toFetch s input) := by
    simp [fetchDetailsStart, hne]
  rw [hstart]
  constructor
  · unfold isLoading markPending
    simp only [hasKey_append]
    have : hasKey ((toFetch s input).map jsToLower) (jsToLower k) = true :=
      (hasKey_iff_mem _ _).mpr (List.mem_map_of_mem _ hmem)
    simp [this]
  · have hcache : getDetails (markPending s (toFetch s input)) k = getDetails s k := rfl
    rw [hcache]
    unfold getDetails
    have h1 : (jsRead s.cache (jsToLower k)).isNone = true := by
      have := (Bool.and_eq_true _ _).mp h
      exact this.1
    exact Option.isNone_iff_eq_none.mp h1

/-- C1 counterexample: the Failed state is not terminal.  After
`fetchDetails(["pikachu"])` fails, the catch stored `undefined` under
`"pikachu"`, which the filter of lines 26-28 reads exactly like a
never-requested key, so a second `fetchDetails(["pikachu"])` issues a fresh
network call for it. -/
theorem failed_key_refetch_cex :
    (fetchDetails netErr (fetchDetails netErr initialState ["pikachu"]).1 ["pikachu"]).2 =
      ["https://pokeapi.co/api/v2/pokemon/pikachu"] ∧
    (fetchDetails netErr (fetchDetails netErr initialState ["pikachu"]).1 ["pikachu"]).2 ≠
      ([] : List String) := by
  refine ⟨by decide, by decide⟩

/-- C1 amended: once a request for `k` settles with failure the failure is
not remembered — `getDetails` is null and `isLoading` false for `k`, the
entry reads back exactly like a never-requested one (`shouldFetch` true
again), and the next `fetchDetails` whose input contains `k` issues a new
network call for `k`.  Only successful resolution is terminal. -/
theorem failed_entry_retried (s : HookState) (k err : String)
    (net : String → Except String PokemonDetails)
    (h : shouldFetch s k = true) (hf : net (urlFor k) = .error err) :
    getDetails (fetchDetails net s [k]).1 k = none ∧
    isLoading (fetchDetails net s [k]).1 k = false ∧
    shouldFetch (fetchDetails net s [k]).1 k = true ∧
    (fetchDetails net (fetchDetails net s [k]).1 [k]).2 = [urlFor k] := by
  have htf : toFetch s [k] = [k] := by simp [toFetch, h]
  have hfd : fetchDetails net s [k] =
      (clearPending (settleOne (markPending s [k]) k none) [k], [urlFor k]) := by
    simp [fetchDetails, htf, fetchOne, hf]
  have hget : getDetails (fetchDetails net s [k]).1 k = none := by
    rw [hfd]
    simp [getDetails, clearPending, settleOne, jsRead, cacheGet]
  have hload : isLoading (fetchDetails net s [k]).1 k = false := by
    rw [hfd]
    exact isLoading_after_clearPending _ _ _ (by simp)
  have hsf : shouldFetch (fetchDetails net s [k]).1 k = true := by
    rw [hfd]
    unfold shouldFetch
    have h1 : jsRead (clearPending (settleOne (markPending s [k]) k none) [k]).cache
        (jsToLower k) = none := by
      simp [clearPending, settleOne, jsRead, cacheGet]
    have h2 : hasKey (clearPending (settleOne (markPending s [k]) k none) [k]).loading
        (jsToLower k) = false := by
      simp [clearPending, settleOne, hasKey_filter, hasKey]
    rw [h1, h2]
    rfl
  refine ⟨hget, hload, hsf, ?_⟩
  have htf2 : toFetch (fetchDetails net s [k]).1 [k] = [k] := by simp [toFetch, hsf]
  rw [fetchDetails_calls, htf2]
  rfl

/-- C3 counterexample: within one batch the input list is not deduplicated.
`"pikachu"` and `"Pikachu"` normalize to the same key, yet
`fetchDetails(["pikachu", "Pikachu"])` on a fresh cache issues two network
calls (at differently-cased URLs), not one. -/
theorem batch_duplicate_calls_cex :
    jsToLower "pikachu" = jsToLower "Pikachu" ∧
    (fetchDetails netOkEcho initialState ["pikachu", "Pikachu"]).2 =
      ["https://pokeapi.co/api/v2/pokemon/pikachu",
       "https://pokeapi.co/api/v2/pokemon/Pikachu"] ∧
    ((fetchDetails netOkEcho initialState ["pikachu", "Pikachu"]).2).length ≠ 1 := by
  refine ⟨by decide, by decide, by decide⟩

/-- C3 amended: within a single `fetchDetails` call, input occurrences whose
normalized key is already cached or pending are skipped, but the input list
itself is not deduplicated — every occurrence passing that filter issues its
own network call, so duplicates or case variants of a novel key are fetched
once per occurrence (two calls for `["pikachu", "Pikachu"]` on a fresh
cache). -/
theorem calls_per_filtered_occurrence (net : String → Except String PokemonDetails)
    (s : HookState) (input : List String) :
    (fetchDetails net s input).2 = (input.filter (fun e => shouldFetch s e)).map urlFor ∧
    ((fetchDetails net initialState ["pikachu", "Pikachu"]).2).length = 2 := by
  refine ⟨fetchDetails_calls net s input, ?_⟩
  rw [fetchDetails_calls net initialState ["pikachu", "Pikachu"]]
  decide

/-- C6: one key's failure does not abort its batch siblings.  If in the batch
`[a, b]` the call for `a` throws while the call for `b` succeeds with `pb`,
then after the batch settles `getDetails` yields `pb` for `b` and null for
`a`, and `isLoading` is false for both. -/
theorem batch_failure_isolation (s : HookState) (a b err : String)
    (pb : PokemonDetails) (net : String → Except String PokemonDetails)
    (hab : jsToLower a ≠ jsToLower b)
    (ha : shouldFetch s a = true) (hb : shouldFetch s b = true)
    (hfa : net (urlFor a) = .error err) (hfb : net (urlFor b) = .ok pb) :
    getDetails (fetchDetails net s [a, b]).1 b = some pb ∧
    getDetails (fetchDetails net s [a, b]).1 a = none ∧
    isLoading (fetchDetails net s [a, b]).1 a = false ∧
    isLoading (fetchDetails net s [a, b]).1 b = false := by
  have htf : toFetch s [a, b] = [a, b] := by simp [toFetch, ha, hb]
  have hfd : fetchDetails net s [a, b] =
      (clearPending (settleOne (settleOne (markPending s [a, b]) a none) b (some pb)) [a, b],
       [urlFor a, urlFor b]) := by
    simp [fetchDetails, htf, fetchOne, hfa, hfb]
  refine ⟨?_, ?_, ?_, ?_⟩
  · rw [hfd]
    simp [getDetails, clearPending, settleOne, jsRead, cacheGet]
  · rw [hfd]
    simp [getDetails, clearPending, settleOne, jsRead, cacheGet, Ne.symm hab]
  · rw [hfd]
    exact isLoading_after_clearPending _ _ _ (by simp)
  · rw [hfd]
    exact isLoading_after_clearPending _ _ _ (by simp)

/-- C8: the Resolved state is terminal.  Once `getDetails s k = some p`, any
later `fetchDetails` batch contains no fetched occurrence normalizing to
`k`'s key (so no network call is issued on `k`'s behalf), and `getDetails`
still returns the same cached payload afterwards. -/
theorem resolved_terminal (s : HookState) (k : String) (p : PokemonDetails)
    (input : List String) (net : String → Except String PokemonDetails)
    (h : getDetails s k = some p) :
    (∀ e ∈ toFetch s input, jsToLower e ≠ jsToLower k) ∧
    getDetails (fetchDetails net s input).1 k = some p := by
  have hnot : ∀ e ∈ toFetch s input, jsToLower e ≠ jsToLower k := by
    intro e he heq
    have hsf : shouldFetch s e = true := (List.mem_filter.mp he).2
    have h1 : (jsRead s.cache (jsToLower e)).isNone = true :=
      ((Bool.and_eq_true _ _).mp hsf).1
    rw [heq] at h1
    unfold getDetails at h
    rw [h] at h1
    cases h1
  refine ⟨hnot, ?_⟩
  unfold fetchDetails
  by_cases hemp : (toFetch s input).isEmpty
  · simp [hemp, h]
  · simp only [hemp, Bool.false_eq_true, if_false]
    unfold getDetails jsRead
    have hcc : (clearPending (List.foldl (fetchOne net) (markPending s (toFetch s input))
        (toFetch s input)) (toFetch s input)).cache =
        (List.foldl (fetchOne net) (markPending s (toFetch s input)) (toFetch s input)).cache :=
      rfl
    rw [hcc, cacheGet_foldl_fetchOne_of_notin net _ _ _ hnot]
    have hmc : (markPending s (toFetch s input)).cache = s.cache := rfl
    rw [hmc]
    unfold getDetails jsRead at h
    exact h

/-- C9: keys are case-insensitive across the three operations — two keys with
the same lowercasing have the same `getDetails` result, the same `isLoading`
status, and the same fetch-filter outcome in `fetchDetails`; in particular a
batch for `"Pikachu"` that resolves with payload `p` makes
`getDetails("pikachu")` return `p`. -/
theorem case_insensitive_ops (s : HookState) (k q : String)
    (net : String → Except String PokemonDetails) (p : PokemonDetails)
    (h : jsToLower k = jsToLower q)
    (hp : net (urlFor "Pikachu") = .ok p) :
    getDetails s k = getDetails s q ∧
    isLoading s k = isLoading s q ∧
    shouldFetch s k = shouldFetch s q ∧
    getDetails (fetchDetails net initialState ["Pikachu"]).1 "pikachu" = some p := by
  refine ⟨by simp [getDetails, h], by simp [isLoading, h], by simp [shouldFetch, h], ?_⟩
  have htf : toFetch initialState ["Pikachu"] = ["Pikachu"] := by decide
  have hlow : jsToLower "Pikachu" = jsToLower "pikachu" := by decide
  have hfd : fetchDetails net initialState ["Pikachu"] =
      (clearPending (settleOne (markPending initialState ["Pikachu"]) "Pikachu" (some p))
        ["Pikachu"], [urlFor "Pikachu"]) := by
    simp [fetchDetails, htf, fetchOne, hp]
  rw [hfd]
  simp [getDetails, clearPending, settleOne, jsRead, cacheGet, hlow]

/-- C10: the request URL keeps the caller's casing while the cache does not.
A non-`http` key is requested at the fixed base URL with the key appended
verbatim, yet both the stored result and the Pending mark live under the
lowercased key; hence two distinct case variants of one name share a single
cache entry but are requested at different URLs. -/
theorem url_verbatim_cache_lower (s : HookState) (k q : String)
    (r : Option PokemonDetails)
    (hk : jsStartsWith k "http" = false) (hq : jsStartsWith q "http" = false)
    (hvar : jsToLower k = jsToLower q) (hne : k ≠ q) :
    urlFor k = "https://pokeapi.co/api/v2/pokemon/" ++ k ∧
    cacheGet (settleOne s k r).cache (jsToLower q) = some r ∧
    hasKey (markPending s [k]).loading (jsToLower k) = true ∧
    urlFor k ≠ urlFor q := by
  refine ⟨by simp [urlFor, hk], ?_, ?_, ?_⟩
  · simp [settleOne, cacheGet, hvar]
  · simp [markPending, hasKey_append, hasKey]
  · simp only [urlFor, hk, hq, Bool.false_eq_true, if_false]
    intro hcontra
    apply hne
    have hd := congrArg String.data hcontra
    simp only [String.data_append] at hd
    have h2 := List.append_cancel_left hd
    cases k with
    | mk dk => cases q with
      | mk dq => exact congrArg String.mk h2

/-! ## Witnesses: each hypothesis-bearing claim theorem applied at a
concrete input -/

/-- A session state in which pikachu's details are already cached. -/
def cachedState : HookState := ⟨[("pikachu", some ⟨25, "pikachu"⟩)], []⟩

theorem pending_guard_requires_commit_witness :
    (shouldFetch ⟨[], []⟩ "pikachu" = true ∧ shouldFetch initialState "pikachu" = true) ∧
    (syncCalls ⟨[], []⟩ ["pikachu"] ++ syncCalls ⟨[], []⟩ ["pikachu"] =
       ["pikachu", "pikachu"] ∧
     (fetchDetailsStart initialState ["pikachu"]).2 = ["pikachu"] ∧
     fetchDetails netErr (fetchDetailsStart initialState ["pikachu"]).1 ["pikachu"] =
       ((fetchDetailsStart initialState ["pikachu"]).1, [])) :=
  ⟨⟨by decide, by decide⟩,
   pending_guard_requires_commit ⟨[], []⟩ initialState "pikachu" netErr (by decide) (by decide)⟩

theorem pending_before_call_witness :
    ("bulbasaur" ∈ ["bulbasaur"] ∧ shouldFetch initialState "bulbasaur" = true) ∧
    (isLoading (fetchDetailsStart initialState ["bulbasaur"]).1 "bulbasaur" = true ∧
     getDetails (fetchDetailsStart initialState ["bulbasaur"]).1 "bulbasaur" = none) :=
  ⟨⟨by decide, by decide⟩,
   pending_before_call initialState ["bulbasaur"] "bulbasaur" (by decide) (by decide)⟩

theorem failed_entry_retried_witness :
    (shouldFetch initialState "pikachu" = true ∧
     netErr (urlFor "pikachu") = .error "network error") ∧
    (getDetails (fetchDetails netErr initialState ["pikachu"]).1 "pikachu" = none ∧
     isLoading (fetchDetails netErr initialState ["pikachu"]).1 "pikachu" = false ∧
     shouldFetch (fetchDetails netErr initialState ["pikachu"]).1 "pikachu" = true ∧
     (fetchDetails netErr (fetchDetails netErr initialState ["pikachu"]).1 ["pikachu"]).2 =
       [urlFor "pikachu"]) :=
  ⟨⟨by decide, rfl⟩,
   failed_entry_retried initialState "pikachu" "network error" netErr (by decide) rfl⟩

theorem batch_failure_isolation_witness :
    (jsToLower "missingno123" ≠ jsToLower "pikachu" ∧
     shouldFetch initialState "missingno123" = true ∧
     shouldFetch initialState "pikachu" = true ∧
     netPika (urlFor "missingno123") = .error "404" ∧
     netPika (urlFor "pikachu") = .ok ⟨25, "pikachu"⟩) ∧
    (getDetails (fetchDetails netPika initialState ["missingno123", "pikachu"]).1 "pikachu" =
       some ⟨25, "pikachu"⟩ ∧
     getDetails (fetchDetails netPika initialState ["missingno123", "pikachu"]).1 "missingno123" =
       none ∧
     isLoading (fetchDetails netPika initialState ["missingno123", "pikachu"]).1 "missingno123" =
       false ∧
     isLoading (fetchDetails netPika initialState ["missingno123", "pikachu"]).1 "pikachu" =
       false) :=
  ⟨⟨by decide, by decide, by decide, rfl, rfl⟩,
   batch_failure_isolation initialState "missingno123" "pikachu" "404" ⟨25, "pikachu"⟩ netPika
     (by decide) (by decide) (by decide) rfl rfl⟩

theorem resolved_terminal_witness :
    getDetails cachedState "Pikachu" = some ⟨25, "pikachu"⟩ ∧
    ((∀ e ∈ toFetch cachedState ["PIKACHU", "pikachu"], jsToLower e ≠ jsToLower "Pikachu") ∧
     getDetails (fetchDetails netErr cachedState ["PIKACHU", "pikachu"]).1 "Pikachu" =
       some ⟨25, "pikachu"⟩) :=
  ⟨by decide,
   resolved_terminal cachedState "Pikachu" ⟨25, "pikachu"⟩ ["PIKACHU", "pikachu"] netErr
     (by decide)⟩

theorem case_insensitive_ops_witness :
    (jsToLower "MewTwo" = jsToLower "mewtwo" ∧
     netOkConst (urlFor "Pikachu") = .ok ⟨25, "pikachu"⟩) ∧
    (getDetails initialState "MewTwo" = getDetails initialState "mewtwo" ∧
     isLoading initialState "MewTwo" = isLoading initialState "mewtwo" ∧
     shouldFetch initialState "MewTwo" = shouldFetch initialState "mewtwo" ∧
     getDetails (fetchDetails netOkConst initialState ["Pikachu"]).1 "pikachu" =
       some ⟨25, "pikachu"⟩) :=
  ⟨⟨by decide, rfl⟩,
   case_insensitive_ops initialState "MewTwo" "mewtwo" netOkConst ⟨25, "pikachu"⟩
     (by decide) rfl⟩

theorem url_verbatim_cache_lower_witness :
    (jsStartsWith "Pikachu" "http" = false ∧ jsStartsWith "pikachu" "http" = false ∧
     jsToLower "Pikachu" = jsToLower "pikachu" ∧ "Pikachu" ≠ "pikachu") ∧
    (urlFor "Pikachu" = "https://pokeapi.co/api/v2/pokemon/" ++ "Pikachu" ∧
     cacheGet (settleOne initialState "Pikachu" (some ⟨25, "pikachu"⟩)).cache
       (jsToLower "pikachu") = some (some ⟨25, "pikachu"⟩) ∧
     hasKey (markPending initialState ["Pikachu"]).loading (jsToLower "Pikachu") = true ∧
     urlFor "Pikachu" ≠ urlFor "pikachu") :=
  ⟨⟨by decide, by decide, by decide, by decide⟩,
   url_verbatim_cache_lower initialState "Pikachu" "pikachu" (some ⟨25, "pikachu"⟩)
     (by decide) (by decide) (by decide) (by decide)⟩
